import Mathlib

/-!
Verification of the scheduling core of the gelatin windowing shell
(src/subcrates/gelatin/src/application.rs and event_loop.rs).

Shallow embedding conventions:
- winit ControlFlow is the Wake Policy: Poll is "Now", WaitUntil t is
  "At(t)", Wait is "Idle".  Instants are Nat microseconds.
- Instant::now() is passed explicitly as a parameter named now.
- The external window collaborator (window.rs is not part of this core;
  only its interface is consumed) is a record of the answers its methods
  return: wakePolicy embeds handle_loop_wake_up().into(), redrawPolicy
  embeds redraw().into(), needsRedraw embeds redraw_needed().
- The global EXIT_REQUESTED atomic, the Application struct and the wake
  policy committed on the winit event loop are combined into one AppState
  record, since all of them are driven by the single loop thread.
- Side effects (calls into windows, the application handler and the
  platform) are recorded in an Effect trace; a fatal unwrap panic on a
  missing window id is an aborted flag on the result.
-/

/-- Wake Policy, mirroring winit ControlFlow: Poll runs again at once,
WaitUntil t runs again no earlier than instant t, Wait runs again only on
an external event. -/
inductive ControlFlow where
  | Poll : ControlFlow
  | Wait : ControlFlow
  | WaitUntil : Nat → ControlFlow
deriving DecidableEq, Repr

/-- Margin used by set_control_flow: Duration::from_micros(100). -/
def short_margin : Nat := 100

/-- Embeds fn set_control_flow (application.rs lines 22-33): a WaitUntil
whose instant is strictly before now plus the margin is committed as Poll,
anything else is committed unchanged. -/
def set_control_flow (now : Nat) (control_flow : ControlFlow) : ControlFlow :=
  match control_flow with
  | ControlFlow.WaitUntil time =>
      if time < now + short_margin then ControlFlow.Poll else control_flow
  | _ => control_flow

/-- Embeds fn aggregate_control_flow (application.rs lines 36-59): merges a
proposed policy into the committed one, returning the new committed policy
and whether the original was replaced. Every adoption is committed through
set_control_flow. -/
def aggregate_control_flow (now : Nat) (original new : ControlFlow) :
    ControlFlow × Bool :=
  match new with
  | ControlFlow.Poll => (set_control_flow now new, true)
  | ControlFlow.WaitUntil new_time =>
      match original with
      | ControlFlow.WaitUntil orig_time =>
          if new_time < orig_time then (set_control_flow now new, true)
          else (original, false)
      | ControlFlow.Wait => (set_control_flow now new, true)
      | _ => (original, false)
  | _ => (original, false)

/-- Embeds fn sanitize_control_flow (application.rs lines 67-69):
re-commits the current policy through set_control_flow to break the
documented platform busy-spin. -/
def sanitize_control_flow (now : Nat) (control_flow : ControlFlow) : ControlFlow :=
  set_control_flow now control_flow

/-- Follows the words of the spec (section 3): the stronger of two Wake
Policies under the total order Now > At(t) > Idle, where among two At
values the earlier instant wins. -/
def spec_strongest : ControlFlow → ControlFlow → ControlFlow
  | _, ControlFlow.Poll => ControlFlow.Poll
  | ControlFlow.Poll, _ => ControlFlow.Poll
  | ControlFlow.WaitUntil t, ControlFlow.WaitUntil u => ControlFlow.WaitUntil (min t u)
  | ControlFlow.WaitUntil t, ControlFlow.Wait => ControlFlow.WaitUntil t
  | ControlFlow.Wait, b => b

/-- Follows the words of the spec (section 8): the strongest Wake Policy
among all proposed values, Idle when nothing was proposed. -/
def spec_strongest_of (proposals : List ControlFlow) : ControlFlow :=
  proposals.foldl spec_strongest ControlFlow.Wait

/-- Folding a list of proposed policies via aggregate_control_flow starting
from the reset baseline Wait, exactly as the loop in new_events does. -/
def apply_fold (now : Nat) (proposals : List ControlFlow) : ControlFlow :=
  proposals.foldl (fun cf p => (aggregate_control_flow now cf p).1) ControlFlow.Wait

/-- Raw per-window event kinds the dispatcher distinguishes; every other
winit WindowEvent variant is collapsed into Other with a code. -/
inductive WindowEvent where
  | RedrawRequested : WindowEvent
  | CloseRequested : WindowEvent
  | Destroyed : WindowEvent
  | Other : Nat → WindowEvent
deriving DecidableEq, Repr

/-- Model of the external window collaborator: the identifier plus the
answers its methods return during one dispatcher step. -/
structure Window where
  id : Nat
  wakePolicy : ControlFlow
  redrawPolicy : ControlFlow
  needsRedraw : Bool
deriving DecidableEq, Repr

/-- Observable side effects of one dispatcher step, in the order they are
performed. -/
inductive Effect where
  | handleWindowEvent : Nat → WindowEvent → Effect
  | redraw : Nat → Effect
  | requestExit : Effect
  | processEvent : Nat → WindowEvent → Effect
  | removeWindow : Nat → Effect
  | mainEventsCleared : Nat → Effect
  | requestRedraw : Nat → Effect
  | handleLoopWakeUp : Nat → Effect
  | canCreateSurface : Effect
  | exitLoop : Effect
deriving DecidableEq, Repr

/-- Registry operations mirroring std HashMap as used by Application:
insert replaces any binding of the same key, get finds the binding,
remove drops it. -/
def Registry.get (ws : List (Nat × Window)) (id : Nat) : Option Window :=
  (ws.find? (fun p => p.1 = id)).map (fun p => p.2)

def Registry.insert (ws : List (Nat × Window)) (id : Nat) (w : Window) :
    List (Nat × Window) :=
  (id, w) :: ws.filter (fun p => p.1 ≠ id)

def Registry.remove (ws : List (Nat × Window)) (id : Nat) : List (Nat × Window) :=
  ws.filter (fun p => p.1 ≠ id)

/-- Combined loop-thread state: windows and first_resume_done embed the
Application struct (lines 73-76), exit_requested embeds the global
EXIT_REQUESTED atomic (line 16), control_flow embeds the wake policy
currently committed on the winit event loop. -/
structure AppState where
  windows : List (Nat × Window)
  first_resume_done : Bool
  exit_requested : Bool
  control_flow : ControlFlow
deriving DecidableEq, Repr

/-- Embeds Application::new (lines 80-85) together with the initial values
of EXIT_REQUESTED (false) and the default winit control flow. -/
def Application.new : AppState :=
  { windows := [], first_resume_done := false, exit_requested := false,
    control_flow := ControlFlow.Wait }

/-- Embeds pub fn request_exit (lines 18-20): stores true into the
process-wide exit flag. -/
def request_exit (s : AppState) : AppState :=
  { s with exit_requested := true }

/-- Embeds Application::register_window (lines 87-89): inserts the window
under its own identifier. -/
def register_window (s : AppState) (w : Window) : AppState :=
  { s with windows := Registry.insert s.windows w.id w }

/-- Embeds fn resumed (lines 152-161): on the first resume only, flip the
flag and invoke the handle_can_create_surface hook. -/
def resumed (s : AppState) : AppState × List Effect :=
  if s.first_resume_done then (s, [])
  else ({ s with first_resume_done := true }, [Effect.canCreateSurface])

/-- Iterates resumed over n successive platform resume notifications,
accumulating the effect traces. -/
def resumed_iter : Nat → AppState → AppState × List Effect
  | 0, s => (s, [])
  | n + 1, s =>
      let r1 := resumed s
      let r2 := resumed_iter n r1.1
      (r2.1, r1.2 ++ r2.2)

/-- Embeds fn about_to_wait (lines 163-174): exit the loop if requested,
otherwise notify every window that main events are cleared and request a
redraw for each window that needs one. -/
def about_to_wait (s : AppState) : AppState × List Effect :=
  if s.exit_requested then (s, [Effect.exitLoop])
  else
    (s,
      s.windows.foldl
        (fun effs p =>
          effs ++ [Effect.mainEventsCleared p.1] ++
            (if p.2.needsRedraw then [Effect.requestRedraw p.1] else []))
        [])

/-- Embeds fn new_events (lines 180-186): reset the committed policy to
Wait, then fold every registered window on-wake policy into it via
aggregate_control_flow. -/
def new_events (now : Nat) (s : AppState) : AppState × List Effect :=
  s.windows.foldl
    (fun acc p =>
      ({ acc.1 with
          control_flow := (aggregate_control_flow now acc.1.control_flow p.2.wakePolicy).1 },
       acc.2 ++ [Effect.handleLoopWakeUp p.1]))
    ({ s with control_flow := ControlFlow.Wait }, [])

/-- Embeds lines 212-226 of fn window_event: the close-requested,
destroyed-flag, process_event and removal steps shared by every event
kind. The Bool result is true when the unwrap on a missing window id
paniced (a fatal abort). -/
def window_event_tail (s : AppState) (effs : List Effect) (window_id : Nat)
    (event : WindowEvent) : AppState × List Effect × Bool :=
  let s1 := if event = WindowEvent.CloseRequested then request_exit s else s
  let effs1 :=
    if event = WindowEvent.CloseRequested then effs ++ [Effect.requestExit] else effs
  match Registry.get s1.windows window_id with
  | none => (s1, effs1, true)
  | some _ =>
      let effs2 := effs1 ++ [Effect.processEvent window_id event]
      if event = WindowEvent.Destroyed then
        ({ s1 with windows := Registry.remove s1.windows window_id },
         effs2 ++ [Effect.removeWindow window_id], false)
      else (s1, effs2, false)

/-- Embeds fn window_event (lines 188-227): sanitize the committed policy,
deliver the event to the application handler and fold its answer, run the
window redraw on RedrawRequested, then the shared tail. The handler
argument models the external application handler hook. -/
def window_event (handler : Nat → WindowEvent → ControlFlow) (now : Nat)
    (s : AppState) (window_id : Nat) (event : WindowEvent) :
    AppState × List Effect × Bool :=
  let s1 : AppState := { s with control_flow := sanitize_control_flow now s.control_flow }
  let handler_next_update := handler window_id event
  let s2 : AppState :=
    { s1 with
        control_flow := (aggregate_control_flow now s1.control_flow handler_next_update).1 }
  let effs : List Effect := [Effect.handleWindowEvent window_id event]
  if event = WindowEvent.RedrawRequested then
    match Registry.get s2.windows window_id with
    | none => (s2, effs, true)
    | some w =>
        let s3 : AppState :=
          { s2 with
              control_flow := (aggregate_control_flow now s2.control_flow w.redrawPolicy).1 }
        window_event_tail s3 (effs ++ [Effect.redraw window_id]) window_id event
  else window_event_tail s2 effs window_id event

/-- Concrete window used by the closed witness statements. -/
def sampleWindow : Window :=
  { id := 1, wakePolicy := ControlFlow.Wait, redrawPolicy := ControlFlow.Wait,
    needsRedraw := true }

/-- Concrete state with one registered window, used by the witnesses. -/
def sampleState : AppState := register_window Application.new sampleWindow

theorem set_control_flow_wait (now : Nat) :
    set_control_flow now ControlFlow.Wait = ControlFlow.Wait := rfl

theorem aggregate_step_strongest (now : Nat) (c p : ControlFlow) :
    (aggregate_control_flow now (set_control_flow now c) p).1 =
      set_control_flow now (spec_strongest c p) := by
  cases c with
  | Poll =>
      cases p with
      | Poll => rfl
      | Wait => rfl
      | WaitUntil t => rfl
  | Wait =>
      cases p with
      | Poll => rfl
      | Wait => rfl
      | WaitUntil t => rfl
  | WaitUntil t0 =>
      cases p with
      | Poll =>
          by_cases h0 : t0 < now + short_margin <;>
            simp [set_control_flow, aggregate_control_flow, spec_strongest, h0]
      | Wait =>
          by_cases h0 : t0 < now + short_margin <;>
            simp [set_control_flow, aggregate_control_flow, spec_strongest, h0]
      | WaitUntil t =>
          by_cases h0 : t0 < now + short_margin
          · have hset : set_control_flow now (ControlFlow.WaitUntil t0) = ControlFlow.Poll := by
              simp [set_control_flow, h0]
            rw [hset]
            simp [aggregate_control_flow, spec_strongest, set_control_flow,
              min_lt_iff, h0]
          · have hset : set_control_flow now (ControlFlow.WaitUntil t0) =
                ControlFlow.WaitUntil t0 := by
              simp [set_control_flow, h0]
            rw [hset]
            by_cases h1 : t < t0
            · have hmin : min t0 t = t := Nat.min_eq_right (Nat.le_of_lt h1)
              simp [aggregate_control_flow, spec_strongest, h1, hmin]
            · have hmin : min t0 t = t0 := Nat.min_eq_left (Nat.le_of_not_lt h1)
              simp [aggregate_control_flow, spec_strongest, set_control_flow, h1, hmin, h0]

theorem foldl_aggregate_eq (now : Nat) (proposals : List ControlFlow) :
    ∀ c : ControlFlow,
      proposals.foldl (fun cf p => (aggregate_control_flow now cf p).1)
          (set_control_flow now c) =
        set_control_flow now (proposals.foldl spec_strongest c) := by
  induction proposals with
  | nil => intro c; rfl
  | cons p ps ih =>
      intro c
      simp only [List.foldl_cons]
      rw [aggregate_step_strongest]
      exact ih (spec_strongest c p)

theorem apply_fold_sanitized (now : Nat) (proposals : List ControlFlow) :
    apply_fold now proposals = set_control_flow now (spec_strongest_of proposals) := by
  unfold apply_fold spec_strongest_of
  have h := foldl_aggregate_eq now proposals ControlFlow.Wait
  rwa [set_control_flow_wait] at h


/-- C1 (amended): for every sequence of proposed Wake Policies folded via
aggregate_control_flow starting from the reset baseline Wait, the committed
policy equals the sanitization (set_control_flow, which rewrites a
WaitUntil strictly before now plus the margin to Poll) of the strongest
policy among all proposed values under the order Poll > WaitUntil(earliest)
> Wait. -/
theorem C1_fold_is_sanitized_strongest (now : Nat) (proposals : List ControlFlow) :
    apply_fold now proposals = set_control_flow now (spec_strongest_of proposals) :=
  apply_fold_sanitized now proposals

/-- C1 counterexample: with now = 0, the single proposal WaitUntil 0 is
committed as Poll rather than as the strongest proposed value WaitUntil 0,
so the committed policy does not always equal the strongest proposal. -/
theorem C1_counterexample :
    apply_fold 0 [ControlFlow.WaitUntil 0] ≠
      spec_strongest_of [ControlFlow.WaitUntil 0] := by decide

/-- C2 (amended): sanitization maps WaitUntil t with t strictly before
now + short_margin to Poll; applied to WaitUntil t with t at or after
now + short_margin, or to Wait or Poll, it leaves the policy unchanged. -/
theorem C2_sanitize_spec (now t : Nat) :
    (t < now + short_margin →
      sanitize_control_flow now (ControlFlow.WaitUntil t) = ControlFlow.Poll) ∧
    (now + short_margin ≤ t →
      sanitize_control_flow now (ControlFlow.WaitUntil t) = ControlFlow.WaitUntil t) ∧
    sanitize_control_flow now ControlFlow.Wait = ControlFlow.Wait ∧
    sanitize_control_flow now ControlFlow.Poll = ControlFlow.Poll := by
  refine ⟨fun h => ?_, fun h => ?_, rfl, rfl⟩
  · simp [sanitize_control_flow, set_control_flow, h]
  · simp [sanitize_control_flow, set_control_flow, Nat.not_lt.mpr h]

theorem C2_witness :
    sanitize_control_flow 0 (ControlFlow.WaitUntil 5) = ControlFlow.Poll ∧
    sanitize_control_flow 0 (ControlFlow.WaitUntil 200) = ControlFlow.WaitUntil 200 :=
  ⟨(C2_sanitize_spec 0 5).1 (by decide), (C2_sanitize_spec 0 200).2.1 (by decide)⟩

/-- C2 counterexample: at the boundary t = now + margin (now = 0, t = 100)
the claim says sanitization yields Now, but the code leaves WaitUntil 100
unchanged because the comparison in set_control_flow is strict. -/
theorem C2_counterexample :
    100 ≤ 0 + short_margin ∧
    sanitize_control_flow 0 (ControlFlow.WaitUntil 100) ≠ ControlFlow.Poll := by
  decide

/-- C3: aggregate_control_flow adopts Poll unconditionally always reporting
changed; it adopts WaitUntil t exactly when the current policy is Wait or a
WaitUntil with a strictly later instant, committing the adopted proposal
through set_control_flow and leaving the current policy unchanged
otherwise; a proposed Wait never changes the current policy. -/
theorem C3_aggregate_spec (now : Nat) (cur proposed : ControlFlow) :
    (proposed = ControlFlow.Poll →
      aggregate_control_flow now cur proposed = (ControlFlow.Poll, true)) ∧
    (∀ t, proposed = ControlFlow.WaitUntil t →
      ((aggregate_control_flow now cur proposed).2 = true ↔
        (cur = ControlFlow.Wait ∨
          ∃ t0, cur = ControlFlow.WaitUntil t0 ∧ t < t0)) ∧
      ((aggregate_control_flow now cur proposed).2 = true →
        (aggregate_control_flow now cur proposed).1 =
          set_control_flow now (ControlFlow.WaitUntil t)) ∧
      ((aggregate_control_flow now cur proposed).2 = false →
        (aggregate_control_flow now cur proposed).1 = cur)) ∧
    (proposed = ControlFlow.Wait →
      aggregate_control_flow now cur proposed = (cur, false)) := by
  refine ⟨fun hp => ?_, fun t hp => ?_, fun hp => ?_⟩
  · subst hp; rfl
  · subst hp
    cases cur with
    | Poll => simp [aggregate_control_flow]
    | Wait => simp [aggregate_control_flow]
    | WaitUntil t0 =>
        by_cases h : t < t0
        · simp [aggregate_control_flow, h]
        · simp [aggregate_control_flow, h]
  · subst hp
    cases cur <;> rfl

theorem C3_witness :
    aggregate_control_flow 0 ControlFlow.Wait ControlFlow.Poll =
      (ControlFlow.Poll, true) :=
  (C3_aggregate_spec 0 ControlFlow.Wait ControlFlow.Poll).1 rfl

theorem registry_get_remove (ws : List (Nat × Window)) (id : Nat) :
    Registry.get (Registry.remove ws id) id = none := by
  unfold Registry.get Registry.remove
  rw [List.find?_eq_none.mpr]
  · rfl
  · intro x hx
    have hmem := List.of_mem_filter hx
    simp at hmem ⊢
    exact hmem

/-- C8: every CloseRequested window event sets the exit flag,
unconditionally in the handler, the time, the state and the window id;
the trace records the request_exit call and no veto step exists. -/
theorem C8_close_requested_exits (handler : Nat → WindowEvent → ControlFlow)
    (now : Nat) (s : AppState) (window_id : Nat) :
    (window_event handler now s window_id
        WindowEvent.CloseRequested).1.exit_requested = true ∧
    Effect.requestExit ∈
      (window_event handler now s window_id WindowEvent.CloseRequested).2.1 := by
  unfold window_event window_event_tail
  cases h : Registry.get s.windows window_id with
  | none => simp [h, request_exit]
  | some w => simp [h, request_exit]

/-- C10: a window event whose id is not in the registry aborts fatally
(the unwrap panics), but only after the application handler hook ran first
and its answer was folded into the committed policy, and, for a
CloseRequested event, after the exit flag was set; the window processor is
never reached. -/
theorem C10_missing_window_abort (handler : Nat → WindowEvent → ControlFlow)
    (now : Nat) (s : AppState) (window_id : Nat) (event : WindowEvent)
    (h : Registry.get s.windows window_id = none) :
    (window_event handler now s window_id event).2.2 = true ∧
    (window_event handler now s window_id event).2.1.head? =
      some (Effect.handleWindowEvent window_id event) ∧
    (window_event handler now s window_id event).1.control_flow =
      (aggregate_control_flow now (sanitize_control_flow now s.control_flow)
        (handler window_id event)).1 ∧
    (event = WindowEvent.CloseRequested →
      (window_event handler now s window_id event).1.exit_requested = true) ∧
    Effect.processEvent window_id event ∉
      (window_event handler now s window_id event).2.1 := by
  cases event <;> simp [window_event, window_event_tail, request_exit, h]

theorem C10_witness :
    (window_event (fun _ _ => ControlFlow.Wait) 0 Application.new 1
        (WindowEvent.Other 0)).2.2 = true ∧
    (window_event (fun _ _ => ControlFlow.Wait) 0 Application.new 1
        WindowEvent.CloseRequested).1.exit_requested = true :=
  ⟨(C10_missing_window_abort (fun _ _ => ControlFlow.Wait) 0 Application.new 1
      (WindowEvent.Other 0) rfl).1,
   (C10_missing_window_abort (fun _ _ => ControlFlow.Wait) 0 Application.new 1
      WindowEvent.CloseRequested rfl).2.2.2.1 rfl⟩

/-- C4: after register_window the registry lookup of the window id returns
that window; processing a Destroyed event for a registered window forwards
the raw event to the window processor first and removes it from the
registry only afterwards (the trace records processEvent before
removeWindow and the step does not abort), after which the lookup fails. -/
theorem C4_register_destroy (handler : Nat → WindowEvent → ControlFlow)
    (now : Nat) (s s0 : AppState) (w : Window) (window_id : Nat)
    (hw : (Registry.get s.windows window_id).isSome = true) :
    Registry.get (register_window s0 w).windows w.id = some w ∧
    (window_event handler now s window_id WindowEvent.Destroyed).2.1 =
      [Effect.handleWindowEvent window_id WindowEvent.Destroyed,
       Effect.processEvent window_id WindowEvent.Destroyed,
       Effect.removeWindow window_id] ∧
    (window_event handler now s window_id WindowEvent.Destroyed).2.2 = false ∧
    Registry.get
      (window_event handler now s window_id WindowEvent.Destroyed).1.windows
      window_id = none := by
  obtain ⟨w0, h⟩ := Option.isSome_iff_exists.mp hw
  refine ⟨?_, ?_, ?_, ?_⟩
  · simp [register_window, Registry.insert, Registry.get, List.find?]
  · simp [window_event, window_event_tail, h]
  · simp [window_event, window_event_tail, h]
  · simp [window_event, window_event_tail, h, registry_get_remove]

theorem C4_witness :
    Registry.get (register_window Application.new sampleWindow).windows
        sampleWindow.id = some sampleWindow ∧
    Registry.get ((window_event (fun _ _ => ControlFlow.Wait) 0 sampleState 1
        WindowEvent.Destroyed).1.windows) 1 = none :=
  ⟨(C4_register_destroy (fun _ _ => ControlFlow.Wait) 0 sampleState Application.new
      sampleWindow 1 (by decide)).1,
   (C4_register_destroy (fun _ _ => ControlFlow.Wait) 0 sampleState Application.new
      sampleWindow 1 (by decide)).2.2.2⟩

theorem new_events_foldl (now : Nat) (ws : List (Nat × Window)) :
    ∀ (a : AppState) (tr : List Effect),
      ws.foldl
        (fun acc p =>
          ({ acc.1 with
              control_flow :=
                (aggregate_control_flow now acc.1.control_flow p.2.wakePolicy).1 },
           acc.2 ++ [Effect.handleLoopWakeUp p.1]))
        (a, tr) =
      ({ a with
          control_flow :=
            ws.foldl (fun cf p => (aggregate_control_flow now cf p.2.wakePolicy).1)
              a.control_flow },
       tr ++ ws.map (fun p => Effect.handleLoopWakeUp p.1)) := by
  induction ws with
  | nil => intro a tr; simp
  | cons p ps ih =>
      intro a tr
      simp only [List.foldl_cons, List.map_cons]
      rw [ih]
      simp

/-- C5: on every wake notification the dispatcher resets the working
policy to Wait, queries every registered window handle_loop_wake_up once,
in registry order, folds the answers via aggregate_control_flow, and the
committed result is the sanitized strongest of the proposed policies; no
other state changes. -/
theorem C5_new_events_spec (now : Nat) (s : AppState) :
    new_events now s =
      ({ s with
          control_flow :=
            set_control_flow now
              (spec_strongest_of (s.windows.map (fun p => p.2.wakePolicy))) },
       s.windows.map (fun p => Effect.handleLoopWakeUp p.1)) ∧
    (new_events now s).1.control_flow =
      apply_fold now (s.windows.map (fun p => p.2.wakePolicy)) := by
  have h1 : new_events now s =
      ({ s with
          control_flow := apply_fold now (s.windows.map (fun p => p.2.wakePolicy)) },
       s.windows.map (fun p => Effect.handleLoopWakeUp p.1)) := by
    unfold new_events
    rw [new_events_foldl]
    simp [apply_fold, List.foldl_map]
  refine ⟨?_, ?_⟩
  · rw [h1, apply_fold_sanitized]
  · rw [h1]

theorem resumed_iter_done (n : Nat) :
    ∀ s : AppState, s.first_resume_done = true → resumed_iter n s = (s, []) := by
  induction n with
  | zero => intro s h; rfl
  | succ n ih =>
      intro s h
      simp [resumed_iter, resumed, h, ih s h]

/-- C6: starting from a state whose first_resume_done flag is false, any
positive number of platform resume notifications flips the flag to true
exactly once and fires handle_can_create_surface exactly once, on the
first notification only. -/
theorem C6_first_resume_one_shot (s : AppState) (n : Nat)
    (hs : s.first_resume_done = false) (hn : 1 ≤ n) :
    (resumed_iter n s).1.first_resume_done = true ∧
    List.count Effect.canCreateSurface (resumed_iter n s).2 = 1 ∧
    (resumed_iter n s).2.head? = some Effect.canCreateSurface := by
  obtain ⟨m, rfl⟩ : ∃ m, n = m + 1 := ⟨n - 1, (Nat.succ_pred_eq_of_pos hn).symm⟩
  have h1 : resumed s = ({ s with first_resume_done := true }, [Effect.canCreateSurface]) := by
    simp [resumed, hs]
  simp [resumed_iter, h1,
    resumed_iter_done m { s with first_resume_done := true } rfl]

theorem C6_witness :
    (resumed_iter 3 Application.new).1.first_resume_done = true ∧
    List.count Effect.canCreateSurface (resumed_iter 3 Application.new).2 = 1 ∧
    (resumed_iter 3 Application.new).2.head? = some Effect.canCreateSurface :=
  C6_first_resume_one_shot Application.new 3 rfl (by decide)

/-- C7: request_exit is idempotent: any positive number of calls leaves
exactly the state of a single call, and the first idle step after any such
sequence instructs the platform to terminate the loop. -/
theorem C7_request_exit_idempotent (s : AppState) (n : Nat) (hn : 1 ≤ n) :
    request_exit^[n] s = request_exit s ∧
    about_to_wait (request_exit^[n] s) = (request_exit s, [Effect.exitLoop]) := by
  have hiter : ∀ m : Nat, request_exit^[m + 1] s = request_exit s := by
    intro m
    induction m with
    | zero => simp
    | succ k ih =>
        rw [Function.iterate_succ_apply', ih]
        rfl
  obtain ⟨m, rfl⟩ : ∃ m, n = m + 1 := ⟨n - 1, (Nat.succ_pred_eq_of_pos hn).symm⟩
  refine ⟨hiter m, ?_⟩
  rw [hiter m]
  simp [about_to_wait, request_exit]

theorem C7_witness :
    request_exit^[2] Application.new = request_exit Application.new ∧
    about_to_wait (request_exit^[2] Application.new) =
      (request_exit Application.new, [Effect.exitLoop]) :=
  C7_request_exit_idempotent Application.new 2 (by decide)

theorem about_effects_foldl (ws : List (Nat × Window)) :
    ∀ acc : List Effect,
      ws.foldl
        (fun effs p =>
          effs ++ [Effect.mainEventsCleared p.1] ++
            (if p.2.needsRedraw then [Effect.requestRedraw p.1] else []))
        acc =
      acc ++ ws.flatMap
        (fun p =>
          Effect.mainEventsCleared p.1 ::
            (if p.2.needsRedraw then [Effect.requestRedraw p.1] else [])) := by
  induction ws with
  | nil => intro acc; simp
  | cons p ps ih =>
      intro acc
      simp only [List.foldl_cons, List.flatMap_cons]
      rw [ih]
      simp

theorem filter_redraw_flatMap (ws : List (Nat × Window)) :
    (ws.flatMap
        (fun p =>
          Effect.mainEventsCleared p.1 ::
            (if p.2.needsRedraw then [Effect.requestRedraw p.1] else []))).filter
      (fun e =>
        match e with
        | Effect.requestRedraw _ => true
        | _ => false) =
    (ws.filter (fun p => p.2.needsRedraw)).map (fun p => Effect.requestRedraw p.1) := by
  induction ws with
  | nil => rfl
  | cons p ps ih =>
      simp only [List.flatMap_cons, List.filter_append, List.filter_cons]
      rw [ih]
      by_cases hr : p.2.needsRedraw
      · simp [hr]
      · simp [hr]

theorem about_to_wait_no_exit (s : AppState) (h : s.exit_requested = false) :
    about_to_wait s =
      (s, s.windows.flatMap
        (fun p =>
          Effect.mainEventsCleared p.1 ::
            (if p.2.needsRedraw then [Effect.requestRedraw p.1] else []))) := by
  unfold about_to_wait
  rw [h]
  rw [if_neg (by decide : ¬ (false = true))]
  rw [about_effects_foldl s.windows []]
  rfl

/-- C9: when exit is not requested, the idle step leaves the state (and so
the committed Wake Policy) unchanged, notifies each registered window that
events are cleared before issuing its redraw request, and the redraw
requests in the trace are exactly one per window reporting needsRedraw;
when exit is requested the loop is terminated and no window receives
either call. -/
theorem C9_about_to_wait_spec (s : AppState) :
    (s.exit_requested = true → about_to_wait s = (s, [Effect.exitLoop])) ∧
    (s.exit_requested = false →
      (about_to_wait s).1 = s ∧
      (about_to_wait s).2 =
        s.windows.flatMap
          (fun p =>
            Effect.mainEventsCleared p.1 ::
              (if p.2.needsRedraw then [Effect.requestRedraw p.1] else [])) ∧
      (about_to_wait s).2.filter
          (fun e =>
            match e with
            | Effect.requestRedraw _ => true
            | _ => false) =
        (s.windows.filter (fun p => p.2.needsRedraw)).map
          (fun p => Effect.requestRedraw p.1)) := by
  refine ⟨fun h => ?_, fun h => ⟨?_, ?_, ?_⟩⟩
  · simp [about_to_wait, h]
  · rw [about_to_wait_no_exit s h]
  · rw [about_to_wait_no_exit s h]
  · rw [about_to_wait_no_exit s h]
    exact filter_redraw_flatMap s.windows

theorem C9_witness :
    (about_to_wait sampleState).1 = sampleState ∧
    (about_to_wait sampleState).2.filter
        (fun e =>
          match e with
          | Effect.requestRedraw _ => true
          | _ => false) =
      [Effect.requestRedraw 1] :=
  ⟨((C9_about_to_wait_spec sampleState).2 rfl).1,
   (((C9_about_to_wait_spec sampleState).2 rfl).2.2).trans (by decide)⟩
